import Mathlib

/-!
Verification development for the AI slide generator.

Part 1: the chat client (ChatInterface.tsx).  Messages, the send handler,
the polling handler and the message grouping are embedded as pure
functions over an explicit client state; the React `useState` setters
become field updates on that state.
-/

namespace SlideGen

/-- The optional metadata object of a ChatMessage, holding the
optional `title` tag. -/
structure MessageMeta where
  title : Option String
deriving DecidableEq, Repr

/-- The `interface ChatMessage` of ChatInterface.tsx: role, content and
optional metadata. -/
structure ChatMessage where
  role : String
  content : String
  metadata : Option MessageMeta
deriving DecidableEq, Repr

/-- JS `s.trim()`: strip whitespace from both ends.  (Defined over the
character list so that it evaluates by kernel reduction.) -/
def trimStr (s : String) : String :=
  ⟨(((s.data.dropWhile Char.isWhitespace).reverse.dropWhile
      Char.isWhitespace).reverse)⟩

/-- JS `m.metadata?.title || ''`: the metadata title with a missing title
normalised to the empty string, as the JS optional chaining does. -/
def titleOrEmpty (m : ChatMessage) : String :=
  (m.metadata.bind (·.title)).getD ""

/-- JS `m.metadata?.title` without the `|| ''` default. -/
def titleOpt (m : ChatMessage) : Option String :=
  m.metadata.bind (·.title)

/-- Substring test on character lists: JS `hay.includes(needle)`. -/
def containsSub (needle : List Char) : List Char → Bool
  | [] => needle.isEmpty
  | c :: rest => needle.isPrefixOf (c :: rest) || containsSub needle rest

/-- JS `s.toLowerCase()` restricted to per-character lowering. -/
def lowerChars (s : String) : List Char :=
  s.data.map Char.toLower

/-- A word character for the purposes of the JS regex `\b` boundary. -/
def isWordChar (c : Char) : Bool :=
  c.isAlphanum || c = '_'

/-- Does the (already lowercased) character list start with `all set`
followed by a word boundary?  Models matching `/all set\b/i` at the
head position. -/
def allSetAt : List Char → Bool
  | 'a' :: 'l' :: 'l' :: ' ' :: 's' :: 'e' :: 't' :: rest =>
    match rest with
    | [] => true
    | c :: _ => !(isWordChar c)
  | _ => false

/-- JS `/all set\b/i.test (s)`: some position of the lowercased string
matches `all set` followed by a word boundary. -/
def testAllSet (s : String) : Bool :=
  go (lowerChars s)
where
  go : List Char → Bool
    | [] => false
    | c :: rest => allSetAt (c :: rest) || go rest

/-- The poll handler's per-message completion test (ChatInterface.tsx
line 374): `(m.metadata?.title || '').toLowerCase() === 'done' ||
/all set\b/i.test(m.content || '')`. -/
def isDoneMsg (m : ChatMessage) : Bool :=
  (lowerChars (titleOrEmpty m) == "done".data) || testAllSet m.content

/-- The poll handler's slide-refresh trigger (line 370):
`!!m?.metadata?.title && /tool result/i.test(m.metadata!.title!)`. -/
def isToolResultMsg (m : ChatMessage) : Bool :=
  (titleOpt m).isSome && containsSub "tool result".data (lowerChars (titleOrEmpty m))

/-- De-duplication equality used at line 359: same role, same content and
same `metadata?.title || ''`. -/
def sameMsg (a b : ChatMessage) : Bool :=
  a.role == b.role && a.content == b.content && titleOrEmpty a == titleOrEmpty b

/-- Inner loop of the consecutive de-duplication (lines 356-361): `prev`
is the message most recently pushed onto `cleaned`. -/
def dedupFrom : ChatMessage → List ChatMessage → List ChatMessage
  | _, [] => []
  | prev, m :: rest =>
    if sameMsg prev m then dedupFrom prev rest else m :: dedupFrom m rest

/-- The `cleaned` list: collapse consecutive messages that agree on role, content
and title (lines 355-361 of ChatInterface.tsx). -/
def dedup : List ChatMessage → List ChatMessage
  | [] => []
  | m :: rest => m :: dedupFrom m rest

/-- The client state held by ChatInterface: the rendered message list,
the input box, the loading flag, the last recorded message count, whether
the polling interval is live (`pollingRef.current !== null`), the POST
`/chat` bodies issued so far and the number of `onSlideUpdate` calls. -/
structure ClientState where
  messages : List ChatMessage
  inputValue : String
  isLoading : Bool
  lastMessageCount : Nat
  polling : Bool
  requests : List String
  slideRefreshes : Nat
deriving DecidableEq, Repr

/-- The `GET /chat/status/default` response body: the full message log and
the monotone `message_count`. -/
structure PollResponse where
  messages : List ChatMessage
  message_count : Nat
deriving DecidableEq, Repr

/-- Function `handleSendMessage` (ChatInterface.tsx lines 442-467): a guard
returns early when the trimmed input is empty or a send is loading;
otherwise the trimmed text is appended as a user message, the input is
cleared, the loading flag set, the POST issued and polling started. -/
def handleSendMessage (s : ClientState) : ClientState :=
  if trimStr s.inputValue = "" || s.isLoading then s
  else
    { messages := s.messages ++ [⟨"user", trimStr s.inputValue, none⟩]
      inputValue := ""
      isLoading := true
      lastMessageCount := s.lastMessageCount
      polling := true
      requests := s.requests ++ [trimStr s.inputValue]
      slideRefreshes := s.slideRefreshes }

/-- Function `pollForUpdates` (ChatInterface.tsx lines 344-388) as a state
transition on one poll response.  Work happens only when the reported
count differs from the last recorded count: the de-duplicated log
replaces the rendered list, the count is recorded, a slide refresh fires
when the new batch has a tool result, polling stops when the new batch
has a done message, and the spinner is hidden. -/
def pollForUpdates (s : ClientState) (r : PollResponse) : ClientState :=
  if r.message_count ≠ s.lastMessageCount then
    { messages := dedup r.messages
      inputValue := s.inputValue
      isLoading := false
      lastMessageCount := r.message_count
      polling :=
        if (r.messages.drop s.lastMessageCount).any isDoneMsg then false
        else s.polling
      requests := s.requests
      slideRefreshes :=
        if (r.messages.drop s.lastMessageCount).any isToolResultMsg then
          s.slideRefreshes + 1
        else s.slideRefreshes }
  else s

/-- The `isToolMessage` test of `groupMessages` (ChatInterface.tsx lines
483-486): the message has a metadata title and that title contains the
substring `Tool` or `tool`. -/
def isToolMessage (m : ChatMessage) : Bool :=
  match titleOpt m with
  | none => false
  | some t => containsSub "Tool".data t.data || containsSub "tool".data t.data

/-- One entry of the grouped message list: an ordinary message rendered
as a chat bubble, or a tool group `{ id, messages, isExpanded }` rendered
as an accordion. -/
inductive GroupItem where
  | single (m : ChatMessage)
  | toolGroup (id : String) (msgs : List ChatMessage) (isExpanded : Bool)
deriving DecidableEq, Repr

/-- The messages an item displays. -/
def itemMsgs : GroupItem → List ChatMessage
  | .single m => [m]
  | .toolGroup _ l _ => l

/-- The `groupMessages` body (lines 481-494) with the running
`toolGroupId` counter made explicit. -/
def groupMessagesAux : Nat → List ChatMessage → List GroupItem
  | _, [] => []
  | n, m :: rest =>
    if isToolMessage m then
      .toolGroup ("tool-group-" ++ toString n) [m] false :: groupMessagesAux (n + 1) rest
    else
      .single m :: groupMessagesAux n rest

/-- Function `groupMessages` (ChatInterface.tsx lines 477-497). -/
def groupMessages (ms : List ChatMessage) : List GroupItem :=
  groupMessagesAux 0 ms

/-- The `done` detection of the spec's polling heuristic: the tail of the
polled log is an assistant message without tool metadata. -/
def tailAssistantNoTool (ms : List ChatMessage) : Bool :=
  match ms.getLast? with
  | none => false
  | some m => m.role == "assistant" && !(isToolMessage m)

/-- The spec's claimed stop-polling rule: processing a poll response
stops polling exactly when the polled log's tail is an assistant message
without tool metadata and the count is stable. -/
def pollingStopsAsSpecified : Prop :=
  ∀ (s : ClientState) (r : PollResponse), s.polling = true →
    ((pollForUpdates s r).polling = false ↔
      (tailAssistantNoTool r.messages = true ∧
        r.message_count = s.lastMessageCount))

/-- No two consecutive list entries agree on role, content and title. -/
def noConsecDup : List ChatMessage → Bool
  | [] => true
  | [_] => true
  | a :: b :: rest => !(sameMsg a b) && noConsecDup (b :: rest)

end SlideGen

namespace SlideGen

/-- C1: For every input text whose trim is empty (and also while a
previous send is still loading), invoking the send operation is a no-op:
no chat request is issued, no new ChatMessage is appended, and the
displayed message log and all client state are unchanged, for every
state of the message log. -/
theorem sendMessage_noop (s : ClientState)
    (h : trimStr s.inputValue = "" ∨ s.isLoading = true) :
    handleSendMessage s = s := by
  unfold handleSendMessage
  rcases h with h | h <;> simp [h]

/-- C1 witness: the guard fires on a whitespace-only input and on a
loading state, leaving the concrete state untouched. -/
theorem sendMessage_noop_witness :
    (trimStr "   " = "" ∨ false = true) ∧
      handleSendMessage ⟨[⟨"user", "hi", none⟩], "   ", false, 1, false, [], 0⟩ =
        ⟨[⟨"user", "hi", none⟩], "   ", false, 1, false, [], 0⟩ :=
  ⟨Or.inl (by decide),
    sendMessage_noop ⟨[⟨"user", "hi", none⟩], "   ", false, 1, false, [], 0⟩
      (Or.inl (by decide))⟩

/-- C3: Polling is idempotent when no progress is signaled: a poll
response whose `message_count` equals the last recorded count leaves the
entire client state — rendered messages, recorded count, loading flag,
polling timer, slide refreshes — unchanged, whatever the response's
message contents. -/
theorem poll_idempotent_when_count_stable (s : ClientState) (r : PollResponse)
    (h : r.message_count = s.lastMessageCount) :
    pollForUpdates s r = s := by
  unfold pollForUpdates
  simp [h]

/-- C3 witness: a concrete stable-count response (with arbitrary
message contents) is ignored. -/
theorem poll_idempotent_witness :
    (1 : Nat) = 1 ∧
      pollForUpdates ⟨[⟨"user", "hi", none⟩], "", true, 1, true, ["hi"], 0⟩
          ⟨[⟨"assistant", "bogus", some ⟨some "Tool result"⟩⟩], 1⟩ =
        ⟨[⟨"user", "hi", none⟩], "", true, 1, true, ["hi"], 0⟩ :=
  ⟨rfl,
    poll_idempotent_when_count_stable
      ⟨[⟨"user", "hi", none⟩], "", true, 1, true, ["hi"], 0⟩
      ⟨[⟨"assistant", "bogus", some ⟨some "Tool result"⟩⟩], 1⟩ rfl⟩

end SlideGen

namespace SlideGen

/-- Helper: the de-duplication inner loop never produces an entry equal
(in the role/content/title sense) to its predecessor. -/
theorem noConsecDup_dedupFrom (l : List ChatMessage) :
    ∀ prev, noConsecDup (prev :: dedupFrom prev l) = true := by
  induction l with
  | nil => intro prev; rfl
  | cons m rest ih =>
    intro prev
    unfold dedupFrom
    by_cases h : sameMsg prev m
    · simp only [h, if_true]
      exact ih prev
    · simp only [h, if_false]
      have hrec := ih m
      simp only [noConsecDup, Bool.and_eq_true, Bool.not_eq_true'] at *
      exact ⟨by simpa using h, hrec⟩

/-- Helper: the de-duplicated list is no longer than the input. -/
theorem dedupFrom_length_le (l : List ChatMessage) :
    ∀ prev, (dedupFrom prev l).length ≤ l.length := by
  induction l with
  | nil => intro prev; simp [dedupFrom]
  | cons m rest ih =>
    intro prev
    unfold dedupFrom
    by_cases h : sameMsg prev m
    · simp only [h, if_true]
      exact Nat.le_succ_of_le (ih prev)
    · simp only [h, if_false, List.length_cons]
      exact Nat.succ_le_succ (ih m)

/-- Helper: full de-duplication leaves no consecutive duplicates. -/
theorem noConsecDup_dedup (ms : List ChatMessage) :
    noConsecDup (dedup ms) = true := by
  cases ms with
  | nil => rfl
  | cons m rest => exact noConsecDup_dedupFrom rest m

/-- Helper: full de-duplication never lengthens the list. -/
theorem dedup_length_le (ms : List ChatMessage) :
    (dedup ms).length ≤ ms.length := by
  cases ms with
  | nil => simp [dedup]
  | cons m rest =>
    simp only [dedup, List.length_cons]
    exact Nat.succ_le_succ (dedupFrom_length_le rest m)

/-- C8: After every poll update the client accepts (reported count differs
from the recorded one), the rendered message list is the consecutive
de-duplication of the polled log: it contains no two consecutive entries
agreeing on role, content and metadata title, and may be shorter than the
server log. -/
theorem poll_accepted_collapses_duplicates (s : ClientState) (r : PollResponse)
    (h : r.message_count ≠ s.lastMessageCount) :
    (pollForUpdates s r).messages = dedup r.messages ∧
      noConsecDup (pollForUpdates s r).messages = true ∧
      (pollForUpdates s r).messages.length ≤ r.messages.length := by
  have hm : (pollForUpdates s r).messages = dedup r.messages := by
    unfold pollForUpdates
    simp [h]
  refine ⟨hm, ?_, ?_⟩
  · rw [hm]; exact noConsecDup_dedup r.messages
  · rw [hm]; exact dedup_length_le r.messages

/-- C8 witness: a concrete accepted poll whose log holds consecutive
duplicates is collapsed. -/
theorem poll_accepted_collapses_duplicates_witness :
    (pollForUpdates ⟨[], "", true, 0, true, [], 0⟩
        ⟨[⟨"assistant", "working", none⟩, ⟨"assistant", "working", none⟩,
          ⟨"assistant", "ok", none⟩], 3⟩).messages =
      dedup [⟨"assistant", "working", none⟩, ⟨"assistant", "working", none⟩,
          ⟨"assistant", "ok", none⟩] ∧
    noConsecDup (pollForUpdates ⟨[], "", true, 0, true, [], 0⟩
        ⟨[⟨"assistant", "working", none⟩, ⟨"assistant", "working", none⟩,
          ⟨"assistant", "ok", none⟩], 3⟩).messages = true ∧
    (pollForUpdates ⟨[], "", true, 0, true, [], 0⟩
        ⟨[⟨"assistant", "working", none⟩, ⟨"assistant", "working", none⟩,
          ⟨"assistant", "ok", none⟩], 3⟩).messages.length ≤
      ([⟨"assistant", "working", none⟩, ⟨"assistant", "working", none⟩,
          ⟨"assistant", "ok", none⟩] : List ChatMessage).length :=
  poll_accepted_collapses_duplicates ⟨[], "", true, 0, true, [], 0⟩
    ⟨[⟨"assistant", "working", none⟩, ⟨"assistant", "working", none⟩,
      ⟨"assistant", "ok", none⟩], 3⟩ (by decide)

/-- C2 counterexample: the code does not stop polling when the polled
tail is an assistant message without tool metadata and the count is
stable — it only stops on a `done` title or `all set` content inside a
batch with a changed count — so the claimed rule is false. -/
theorem poll_stop_claim_refuted : ¬ pollingStopsAsSpecified := by
  intro h
  have h2 :=
    h ⟨[], "", false, 2, true, [], 0⟩
      ⟨[⟨"user", "hi", none⟩, ⟨"assistant", "hello", none⟩], 2⟩ rfl
  revert h2
  decide

/-- C2 (amended): processing a poll response stops polling exactly when
the reported count differs from the recorded one and some message of the
new batch (positions from the recorded count on) has metadata title
`done` (case-insensitive) or content matching `all set` at a word
boundary (case-insensitive); polling never stops otherwise. -/
theorem poll_stop_characterisation (s : ClientState) (r : PollResponse)
    (h : s.polling = true) :
    ((pollForUpdates s r).polling = false ↔
      (r.message_count ≠ s.lastMessageCount ∧
        (r.messages.drop s.lastMessageCount).any isDoneMsg = true)) := by
  unfold pollForUpdates
  by_cases hc : r.message_count = s.lastMessageCount
  · simp [hc, h]
  · by_cases hd : (r.messages.drop s.lastMessageCount).any isDoneMsg = true
    · simp [hc, hd]
    · simp [hc, hd, h]

/-- C2 witness: a batch carrying an `All set!` assistant message with a
changed count stops the concrete client's polling. -/
theorem poll_stop_characterisation_witness :
    (pollForUpdates ⟨[], "", true, 0, true, [], 0⟩
        ⟨[⟨"assistant", "All set!", none⟩], 1⟩).polling = false :=
  (poll_stop_characterisation ⟨[], "", true, 0, true, [], 0⟩
      ⟨[⟨"assistant", "All set!", none⟩], 1⟩ rfl).mpr (by decide)

/-- Helper: grouping flattens back to the original message list,
whatever the starting counter. -/
theorem groupMessagesAux_flat (ms : List ChatMessage) :
    ∀ n, (groupMessagesAux n ms).flatMap itemMsgs = ms := by
  induction ms with
  | nil => intro n; rfl
  | cons m rest ih =>
    intro n
    unfold groupMessagesAux
    cases h : isToolMessage m <;> simp [itemMsgs, ih]

/-- Helper: every produced group is either a non-tool single message or a
collapsed singleton tool group whose message has a title containing
`Tool` or `tool`. -/
theorem groupMessagesAux_mem (ms : List ChatMessage) :
    ∀ n g, g ∈ groupMessagesAux n ms →
      (match g with
       | .single m => isToolMessage m = false
       | .toolGroup _ l e =>
          e = false ∧ ∃ m, l = [m] ∧ isToolMessage m = true) := by
  induction ms with
  | nil => intro n g hg; simp [groupMessagesAux] at hg
  | cons m rest ih =>
    intro n g hg
    unfold groupMessagesAux at hg
    cases h : isToolMessage m with
    | true =>
      rw [h] at hg
      simp at hg
      rcases hg with rfl | hg
      · exact ⟨rfl, m, rfl, h⟩
      · exact ih (n + 1) g hg
    | false =>
      rw [h] at hg
      simp at hg
      rcases hg with rfl | hg
      · exact h
      · exact ih n g hg

/-- C7: A message renders as its own collapsed tool accordion exactly
when it carries a metadata title containing `Tool` or `tool`; all other
messages render as ordinary bubbles, and grouping preserves order and
multiplicity (flattening the groups restores the original list). -/
theorem groupMessages_spec (ms : List ChatMessage) :
    ((groupMessages ms).flatMap itemMsgs = ms) ∧
      (∀ g ∈ groupMessages ms,
        (match g with
         | .single m => isToolMessage m = false
         | .toolGroup _ l e =>
            e = false ∧ ∃ m, l = [m] ∧ isToolMessage m = true)) ∧
      (∀ m : ChatMessage,
        isToolMessage m = true ↔
          ∃ t, titleOpt m = some t ∧
            (containsSub "Tool".data t.data || containsSub "tool".data t.data)
              = true) := by
  refine ⟨groupMessagesAux_flat ms 0, fun g hg => groupMessagesAux_mem ms 0 g hg, ?_⟩
  intro m
  unfold isToolMessage
  cases h : titleOpt m with
  | none => simp
  | some t =>
    constructor
    · intro hc; exact ⟨t, rfl, hc⟩
    · rintro ⟨t', ht', hc⟩
      cases ht'
      exact hc

end SlideGen

/-!
Part 2: the slide viewer (SlideViewer.tsx).  The browser's `DOMParser`
is external; its output on the given HTML is modelled as an optional
list of `.reveal .slides section` elements (`none` when parsing threw),
each carrying its descendant elements in document order.
-/

namespace SlideGen

/-- The `hasSlides` test (SlideViewer.tsx line 200):
`html && html.trim().length > 0`. -/
def hasSlides (html : String) : Bool :=
  (html != "") && (trimStr html != "")

/-- A DOM element as far as the viewer reads it: tag name and
`textContent`. -/
structure Element where
  tag : String
  text : String
deriving DecidableEq, Repr

/-- One `.reveal .slides section` element with its descendant elements
in document order. -/
structure DocSection where
  elems : List Element
deriving DecidableEq, Repr

/-- One sidebar entry `{ index, title }`. -/
structure SlideMeta where
  index : Nat
  title : String
deriving DecidableEq, Repr

/-- JS `section.querySelector('h1, h2, h3')`: the first descendant that is
an h1, h2 or h3, in document order. -/
def firstHeading (sec : DocSection) : Option Element :=
  sec.elems.find? (fun e => e.tag == "h1" || e.tag == "h2" || e.tag == "h3")

/-- JS `(heading?.textContent || '').trim()` with the positional
fallback title (SlideViewer.tsx line 213). -/
def slideTitle (sec : DocSection) (i : Nat) : String :=
  let t := trimStr (((firstHeading sec).map (·.text)).getD "")
  if t = "" then "Slide " ++ toString (i + 1) else t

/-- JS `sections.map((section, i) => ...)` with the index made explicit. -/
def metaFrom : Nat → List DocSection → List SlideMeta
  | _, [] => []
  | i, sec :: rest => ⟨i, slideTitle sec i⟩ :: metaFrom (i + 1) rest

/-- The `slidesMeta` memo (SlideViewer.tsx lines 205-219): empty when there is no
HTML, empty when parsing threw, else one titled entry per section. -/
def slidesMeta (html : String) (parsed : Option (List DocSection)) :
    List SlideMeta :=
  if hasSlides html then
    match parsed with
    | some secs => metaFrom 0 secs
    | none => []
  else []

/-- Viewer state: the active slide index and the indices carried by the
`NAVIGATE_TO` messages posted to the slide frame so far. -/
structure ViewerState where
  activeIndex : Nat
  posted : List Nat
deriving DecidableEq, Repr

/-- The html-change effect (SlideViewer.tsx lines 241-251): when slides
exist, reset the active index to 0 and post `NAVIGATE_TO 0` to the
frame; otherwise do nothing. -/
def onHtmlChange (html : String) (s : ViewerState) : ViewerState :=
  if hasSlides html then { activeIndex := 0, posted := s.posted ++ [0] }
  else s

/-- What the viewer renders. -/
inductive RenderView where
  | emptyState
  | slideFrame (metas : List SlideMeta)
deriving DecidableEq, Repr

/-- The render branch (SlideViewer.tsx lines 255-316): a slide area with
the sidebar list when slides exist, else the empty-state placeholder. -/
def renderViewer (html : String) (parsed : Option (List DocSection)) :
    RenderView :=
  if hasSlides html then .slideFrame (slidesMeta html parsed) else .emptyState

end SlideGen

namespace SlideGen

/-- C9: When the HTML passed to the viewer changes to a non-empty (after
trimming) value, the active slide index is reset to 0 and a NAVIGATE_TO
message for index 0 is posted; when the HTML is empty or
whitespace-only, the effect is a no-op, the slide list is empty and the
empty-state placeholder is rendered instead of a frame. -/
theorem viewer_html_change (html : String) (parsed : Option (List DocSection))
    (s : ViewerState) :
    (hasSlides html = true →
      onHtmlChange html s = ⟨0, s.posted ++ [0]⟩) ∧
    (hasSlides html = false →
      onHtmlChange html s = s ∧ slidesMeta html parsed = [] ∧
        renderViewer html parsed = .emptyState) := by
  constructor
  · intro h
    unfold onHtmlChange
    simp [h]
  · intro h
    refine ⟨?_, ?_, ?_⟩ <;> simp [onHtmlChange, slidesMeta, renderViewer, h]

/-- C9 witness: a concrete non-empty document resets the index and posts
the navigation message; a whitespace document leaves state alone and
renders the placeholder. -/
theorem viewer_html_change_witness :
    onHtmlChange "<p>x</p>" ⟨3, [2]⟩ = ⟨0, [2] ++ [0]⟩ ∧
      (onHtmlChange "  " ⟨3, [2]⟩ = ⟨3, [2]⟩ ∧
        slidesMeta "  " (some [⟨[⟨"h1", "T"⟩]⟩]) = [] ∧
        renderViewer "  " (some [⟨[⟨"h1", "T"⟩]⟩]) = .emptyState) :=
  ⟨(viewer_html_change "<p>x</p>" none ⟨3, [2]⟩).1 (by decide),
    (viewer_html_change "  " (some [⟨[⟨"h1", "T"⟩]⟩]) ⟨3, [2]⟩).2 (by decide)⟩

/-- Helper: length of the indexed section map. -/
theorem metaFrom_length (secs : List DocSection) :
    ∀ k, (metaFrom k secs).length = secs.length := by
  induction secs with
  | nil => intro k; rfl
  | cons sec rest ih =>
    intro k
    simp [metaFrom, ih]

/-- Helper: the i-th entry of the indexed section map. -/
theorem metaFrom_get (secs : List DocSection) :
    ∀ k i (hi : i < secs.length),
      (metaFrom k secs)[i]? =
        some ⟨k + i, slideTitle (secs.get ⟨i, hi⟩) (k + i)⟩ := by
  induction secs with
  | nil => intro k i hi; exact absurd hi (Nat.not_lt_zero i)
  | cons sec rest ih =>
    intro k i hi
    cases i with
    | zero => simp [metaFrom]
    | succ j =>
      have hj : j < rest.length := Nat.lt_of_succ_lt_succ hi
      have hk : k + (j + 1) = (k + 1) + j := by omega
      have hget : (sec :: rest).get ⟨j + 1, hi⟩ = rest.get ⟨j, hj⟩ := rfl
      simp only [metaFrom, List.getElem?_cons_succ]
      rw [ih (k + 1) j hj, hget, hk]

/-- Helper: the computed title is exactly the claim's rule — the trimmed
text of the first h1/h2/h3 heading, with the `Slide i+1` fallback when
there is no heading or its trimmed text is empty. -/
theorem slideTitle_eq_rule (sec : DocSection) (i : Nat) :
    slideTitle sec i =
      (match firstHeading sec with
       | none => "Slide " ++ toString (i + 1)
       | some hd =>
          if trimStr hd.text = "" then "Slide " ++ toString (i + 1)
          else trimStr hd.text) := by
  unfold slideTitle
  cases h : firstHeading sec with
  | none => simp [h, trimStr]
  | some hd => simp [h]

/-- C10: For a non-empty HTML document the sidebar has exactly one entry
per section, in document order; entry i is titled by the trimmed text of
the section's first h1/h2/h3 heading, falling back to `Slide i+1` when
no heading exists or its text trims to empty; a parse failure yields an
empty list. -/
theorem slidesMeta_entries (html : String) (secs : List DocSection)
    (h : hasSlides html = true) :
    (slidesMeta html (some secs)).length = secs.length ∧
      (∀ i (hi : i < secs.length),
        (slidesMeta html (some secs))[i]? =
          some ⟨i,
            (match firstHeading (secs.get ⟨i, hi⟩) with
             | none => "Slide " ++ toString (i + 1)
             | some hd =>
                if trimStr hd.text = "" then "Slide " ++ toString (i + 1)
                else trimStr hd.text)⟩) ∧
      slidesMeta html none = [] := by
  have hm : slidesMeta html (some secs) = metaFrom 0 secs := by
    unfold slidesMeta
    simp [h]
  refine ⟨by rw [hm]; exact metaFrom_length secs 0, ?_, by unfold slidesMeta; simp [h]⟩
  intro i hi
  rw [hm]
  have := metaFrom_get secs 0 i hi
  simp only [Nat.zero_add] at this
  rw [this, slideTitle_eq_rule]

/-- C10 witness: a three-section document gets entries titled by its
h2's trimmed text, the positional fallback for the heading-less section
and the fallback for the whitespace-only h1. -/
theorem slidesMeta_entries_witness :
    (slidesMeta "x" (some [⟨[⟨"p", "a"⟩, ⟨"h2", "  Hello  "⟩]⟩, ⟨[]⟩,
        ⟨[⟨"h1", "   "⟩]⟩])).length = 3 ∧
      (slidesMeta "x" (some [⟨[⟨"p", "a"⟩, ⟨"h2", "  Hello  "⟩]⟩, ⟨[]⟩,
        ⟨[⟨"h1", "   "⟩]⟩]))[0]? = some ⟨0, "Hello"⟩ ∧
      (slidesMeta "x" (some [⟨[⟨"p", "a"⟩, ⟨"h2", "  Hello  "⟩]⟩, ⟨[]⟩,
        ⟨[⟨"h1", "   "⟩]⟩]))[1]? = some ⟨1, "Slide 2"⟩ ∧
      (slidesMeta "x" (some [⟨[⟨"p", "a"⟩, ⟨"h2", "  Hello  "⟩]⟩, ⟨[]⟩,
        ⟨[⟨"h1", "   "⟩]⟩]))[2]? = some ⟨2, "Slide 3"⟩ ∧
      slidesMeta "x" none = [] := by
  have h := slidesMeta_entries "x"
    [⟨[⟨"p", "a"⟩, ⟨"h2", "  Hello  "⟩]⟩, ⟨[]⟩, ⟨[⟨"h1", "   "⟩]⟩] (by decide)
  refine ⟨h.1, ?_, ?_, ?_, h.2.2⟩
  · rw [h.2.1 0 (by decide)]; decide
  · rw [h.2.1 1 (by decide)]; decide
  · rw [h.2.1 2 (by decide)]; decide

end SlideGen

/-!
Part 3: the orchestration core.  The repository snapshot ships only the
frontend, the test plans and the architecture documents; the Python
orchestrator (agent, planner, generator, status reporter) is absent, so
this part is modelled from the specification's §3-§4.6 and settles the
deck/orchestrator claims against that model.
-/

namespace SlideGen

/-- Modelled from the spec: a Slide — stable unique identifier (assigned
once, never reused), a mutable ordinal position and a markup payload
(§3). -/
structure Slide where
  id : Nat
  ordinal : Nat
  markup : String
deriving DecidableEq, Repr

/-- Modelled from the spec: the authoritative ordered deck plus the next
fresh identifier (identifiers are assigned once and never reused, so
they come from a monotone counter). -/
structure Deck where
  slides : List Slide
  nextId : Nat
deriving DecidableEq, Repr

/-- Modelled from the spec: the deck-mutating todo actions — insert a
generated slide, delete by id, reorder by moving a slide (§3 Todo,
§4.3). -/
inductive DeckOp where
  | insert (pos : Nat) (markup : String)
  | delete (id : Nat)
  | move (src dst : Nat)
deriving DecidableEq, Repr

/-- Insert at a position, clamping to the end. -/
def insertAt : Nat → Slide → List Slide → List Slide
  | 0, a, l => a :: l
  | _ + 1, a, [] => [a]
  | n + 1, a, x :: l => x :: insertAt n a l

/-- Remove the element at a position (identity when out of range). -/
def removeAt : Nat → List Slide → List Slide
  | _, [] => []
  | 0, _ :: rest => rest
  | n + 1, x :: rest => x :: removeAt n rest

/-- Move the element at `src` to position `dst` (identity when `src` is
out of range). -/
def moveAt (src dst : Nat) (l : List Slide) : List Slide :=
  match l[src]? with
  | none => l
  | some s => insertAt dst s (removeAt src l)

/-- Re-assign ordinals `n, n+1, ...` along the list; every mutation ends
by renumbering from 0, re-establishing the contiguity invariant. -/
def renumberFrom : Nat → List Slide → List Slide
  | _, [] => []
  | n, s :: rest => { s with ordinal := n } :: renumberFrom (n + 1) rest

/-- Modelled from the spec: one deck mutation.  An insert assigns the
fresh identifier and bumps the counter; every mutation renumbers the
ordinals to `0..k-1` (§3: invariants checked on every mutation). -/
def applyOp (d : Deck) : DeckOp → Deck
  | .insert pos markup =>
    { slides := renumberFrom 0 (insertAt pos ⟨d.nextId, 0, markup⟩ d.slides)
      nextId := d.nextId + 1 }
  | .delete i =>
    { d with slides := renumberFrom 0 (d.slides.filter (fun s => s.id != i)) }
  | .move src dst =>
    { d with slides := renumberFrom 0 (moveAt src dst d.slides) }

/-- The deck invariant of §3/§8: slide identifiers are pairwise distinct,
ordinals read `0..k-1` in order, and all identifiers are below the fresh
counter. -/
def deckInv (d : Deck) : Prop :=
  (d.slides.map (fun s => s.id)).Nodup ∧
    d.slides.map (fun s => s.ordinal) = List.range d.slides.length ∧
    ∀ s ∈ d.slides, s.id < d.nextId

end SlideGen

namespace SlideGen

/-- Helper: renumbering does not touch identifiers. -/
theorem renumberFrom_map_id (l : List Slide) :
    ∀ n, (renumberFrom n l).map (fun s => s.id) = l.map (fun s => s.id) := by
  induction l with
  | nil => intro n; rfl
  | cons s rest ih => intro n; simp [renumberFrom, ih]

/-- Helper: renumbering does not touch markup. -/
theorem renumberFrom_map_markup (l : List Slide) :
    ∀ n, (renumberFrom n l).map (fun s => s.markup)
      = l.map (fun s => s.markup) := by
  induction l with
  | nil => intro n; rfl
  | cons s rest ih => intro n; simp [renumberFrom, ih]

/-- Helper: renumbering writes the ordinals `n, n+1, ...`. -/
theorem renumberFrom_map_ordinal (l : List Slide) :
    ∀ n, (renumberFrom n l).map (fun s => s.ordinal)
      = List.range' n l.length := by
  induction l with
  | nil => intro n; rfl
  | cons s rest ih =>
    intro n
    simp [renumberFrom, ih, List.range'_succ]

/-- Helper: renumbering preserves length. -/
theorem renumberFrom_length (l : List Slide) :
    ∀ n, (renumberFrom n l).length = l.length := by
  induction l with
  | nil => intro n; rfl
  | cons s rest ih => intro n; simp [renumberFrom, ih]

/-- Helper: positional insertion is a permutation of consing. -/
theorem insertAt_perm (a : Slide) :
    ∀ (n : Nat) (l : List Slide), List.Perm (insertAt n a l) (a :: l) := by
  intro n
  induction n with
  | zero => intro l; cases l <;> exact List.Perm.refl _
  | succ m ih =>
    intro l
    cases l with
    | nil => exact List.Perm.refl _
    | cons x rest =>
      exact List.Perm.trans (List.Perm.cons x (ih rest)) (List.Perm.swap a x rest)

/-- Helper: removing the element found at `src` is inverse to consing it
back, up to permutation. -/
theorem removeAt_perm (l : List Slide) :
    ∀ (src : Nat) (s : Slide), l[src]? = some s →
      List.Perm l (s :: removeAt src l) := by
  induction l with
  | nil => intro src s h; simp at h
  | cons x rest ih =>
    intro src s h
    cases src with
    | zero =>
      simp at h
      subst h
      exact List.Perm.refl _
    | succ m =>
      simp only [List.getElem?_cons_succ] at h
      exact List.Perm.trans (List.Perm.cons x (ih m s h))
        (List.Perm.swap s x (removeAt m rest))

/-- Helper: moving a slide permutes the deck. -/
theorem moveAt_perm (src dst : Nat) (l : List Slide) :
    List.Perm (moveAt src dst l) l := by
  unfold moveAt
  cases h : l[src]? with
  | none => exact List.Perm.refl l
  | some s =>
    exact List.Perm.trans (insertAt_perm s dst (removeAt src l))
      (removeAt_perm l src s h).symm

/-- Helper: an identifier occurring after renumbering occurred before. -/
theorem mem_renumberFrom_id {s : Slide} {l : List Slide} {n : Nat}
    (hs : s ∈ renumberFrom n l) : s.id ∈ l.map (fun t => t.id) := by
  have : s.id ∈ (renumberFrom n l).map (fun t => t.id) :=
    List.mem_map_of_mem _ hs
  rwa [renumberFrom_map_id] at this

/-- Helper: renumbering a list whose identifiers are distinct and below
the counter yields an invariant-satisfying deck. -/
theorem deckInv_renumber (l : List Slide) (next : Nat)
    (hnodup : (l.map (fun s => s.id)).Nodup)
    (hlt : ∀ s ∈ l, s.id < next) :
    deckInv ⟨renumberFrom 0 l, next⟩ := by
  refine ⟨?_, ?_, ?_⟩
  · rw [renumberFrom_map_id]; exact hnodup
  · rw [renumberFrom_map_ordinal, renumberFrom_length, List.range_eq_range']
  · intro s hs
    have hid := mem_renumberFrom_id hs
    rcases List.mem_map.mp hid with ⟨t, ht, hts⟩
    rw [← hts]
    exact hlt t ht

instance (d : Deck) : Decidable (deckInv d) := by
  unfold deckInv
  infer_instance

/-- Helper: each deck mutation preserves the invariant. -/
theorem applyOp_inv (d : Deck) (op : DeckOp) (h : deckInv d) :
    deckInv (applyOp d op) := by
  obtain ⟨hnodup, _, hlt⟩ := h
  cases op with
  | insert pos markup =>
    have hperm : List.Perm (insertAt pos ⟨d.nextId, 0, markup⟩ d.slides)
        (⟨d.nextId, 0, markup⟩ :: d.slides) := insertAt_perm _ pos d.slides
    refine deckInv_renumber _ _ ?_ ?_
    · have hmap := hperm.map (fun s => s.id)
      refine hmap.symm.nodup ?_
      rw [List.map_cons, List.nodup_cons]
      refine ⟨?_, hnodup⟩
      intro hmem
      rcases List.mem_map.mp hmem with ⟨t, ht, hts⟩
      exact absurd hts (Nat.ne_of_lt (hlt t ht))
    · intro s hs
      rcases List.mem_cons.mp (hperm.mem_iff.mp hs) with rfl | hs'
      · exact Nat.lt_succ_self _
      · exact Nat.lt_succ_of_lt (hlt s hs')
  | delete i =>
    have hsub : List.Sublist (d.slides.filter (fun s => s.id != i)) d.slides :=
      List.filter_sublist d.slides
    refine deckInv_renumber _ _ ?_ ?_
    · exact (hsub.map (fun s => s.id)).nodup hnodup
    · intro s hs
      exact hlt s (hsub.mem hs)
  | move src dst =>
    have hperm := moveAt_perm src dst d.slides
    refine deckInv_renumber _ _ ?_ ?_
    · exact (hperm.map (fun s => s.id)).symm.nodup hnodup
    · intro s hs
      exact hlt s (hperm.mem_iff.mp hs)

/-- C6: After any sequence of insert, delete and reorder todos, slide
identifiers are pairwise unique and the ordinals of the k slides form the
contiguous sequence 0..k-1: every deck mutation re-establishes the
invariant. -/
theorem deck_invariant_preserved (d : Deck) (ops : List DeckOp)
    (h : deckInv d) : deckInv (ops.foldl applyOp d) := by
  induction ops generalizing d with
  | nil => exact h
  | cons op rest ih => exact ih (applyOp d op) (applyOp_inv d op h)

/-- C6 witness: a concrete insert/insert/reorder/delete run from the
empty deck keeps the invariant. -/
theorem deck_invariant_preserved_witness :
    deckInv (([DeckOp.insert 0 "a", DeckOp.insert 0 "b", DeckOp.move 0 1,
      DeckOp.delete 0] : List DeckOp).foldl applyOp ⟨[], 0⟩) :=
  deck_invariant_preserved ⟨[], 0⟩
    [DeckOp.insert 0 "a", DeckOp.insert 0 "b", DeckOp.move 0 1,
      DeckOp.delete 0] (by decide)

end SlideGen

namespace SlideGen

/-- Modelled from the spec: the session aggregate — deck, message log,
error log and config version (§3 SessionState). -/
structure SessionState where
  deck : Deck
  log : List ChatMessage
  errors : List String
  configVersion : Nat
deriving DecidableEq, Repr

/-- Modelled from the spec: the generation attempt cap — one model call
plus the bounded validation-retry loop (§4.4, "up to a fixed retry
bound (document as a constant, e.g., 2 retries)"). -/
def MAX_ATTEMPTS : Nat := 3

/-- Modelled from the spec: one GENERATE_SLIDE todo (§4.4 Content
Generator).  The language model is external, so its successive candidate
responses arrive as the `responses` list; the first of the at most
`MAX_ATTEMPTS` tried candidates that validates is inserted at
the end of the deck; if none validates, an error record is emitted, an
error-tagged tool message is logged, and no slide is inserted. -/
def runGenerate (validate : String → Bool) (responses : List String)
    (st : SessionState) : SessionState :=
  match (responses.take MAX_ATTEMPTS).find? (fun r => validate r) with
  | some markup =>
    { st with
        deck := applyOp st.deck (.insert st.deck.slides.length markup)
        log := st.log ++ [⟨"assistant", "Inserted a generated slide",
          some ⟨some "Tool result: generate_slide"⟩⟩] }
  | none =>
    { st with
        errors := st.errors ++ ["slide generation failed validation"]
        log := st.log ++ [⟨"assistant", "Slide generation failed validation",
          some ⟨some "Tool result: error"⟩⟩] }

/-- Modelled from the spec: the fixed intent set, restricted to the
variants the settled claims exercise (§4.2). -/
inductive Intent where
  | createPresentation (n : Nat)
  | queryStatus
  | unknown
deriving DecidableEq, Repr

/-- Modelled from the spec: intent classification on the message text;
anything unrecognised degrades to UNKNOWN (§4.2). -/
def classifyIntent (text : String) : Intent :=
  if containsSub "create".data (lowerChars text) then .createPresentation 2
  else if containsSub "status".data (lowerChars text) then .queryStatus
  else .unknown

/-- Modelled from the spec: one planned unit of work (§3 Todo). -/
inductive Todo where
  | generate (topic : String)
  | remove (id : Nat)
  | reorder (src dst : Nat)
deriving DecidableEq, Repr

/-- Modelled from the spec: the Planner expands an intent into an
ordered todo queue; CREATE_PRESENTATION yields N generation todos,
UNKNOWN and QUERY_STATUS yield none (§4.3). -/
def plan : Intent → List Todo
  | .createPresentation n => (List.range n).map (fun i => .generate ("part " ++ toString i))
  | .queryStatus => []
  | .unknown => []

/-- Modelled from the spec: the Orchestrator's FIFO execution loop; each
generation todo consumes the next oracle response list, deck todos log a
tool message (§4.1 Executing). -/
def runTodos (validate : String → Bool) :
    List Todo → List (List String) → SessionState → SessionState
  | [], _, st => st
  | .generate _ :: ts, oracle, st =>
    runTodos validate ts oracle.tail (runGenerate validate (oracle.headD []) st)
  | .remove i :: ts, oracle, st =>
    runTodos validate ts oracle
      { st with
          deck := applyOp st.deck (.delete i)
          log := st.log ++ [⟨"assistant", "Deleted a slide",
            some ⟨some "Tool result: delete_slide"⟩⟩] }
  | .reorder src dst :: ts, oracle, st =>
    runTodos validate ts oracle
      { st with
          deck := applyOp st.deck (.move src dst)
          log := st.log ++ [⟨"assistant", "Reordered the deck",
            some ⟨some "Tool result: reorder_slides"⟩⟩] }

/-- Modelled from the spec: the Status Reporter appends exactly one
assistant summary message at the end of every turn (§4.6). -/
def reportStatus (st : SessionState) : SessionState :=
  { st with log := st.log ++ [⟨"assistant",
      "The deck now has " ++ toString st.deck.slides.length ++ " slides.",
      none⟩] }

/-- Modelled from the spec: `process_message` (§4.1) — empty input after
trimming is a no-op returning the unchanged log; otherwise the user
message is appended, the pipeline classify → plan → execute runs, and
the Status Reporter appends the turn's closing message. -/
def process_message (validate : String → Bool) (oracle : List (List String))
    (st : SessionState) (text : String) : SessionState :=
  if trimStr text = "" then st
  else
    reportStatus (runTodos validate (plan (classifyIntent text)) oracle
      { st with log := st.log ++ [⟨"user", trimStr text, none⟩] })

/-- The claim's literal statement: every `process_message` call grows
the message log. -/
def processMessageAlwaysGrowsLog : Prop :=
  ∀ (validate : String → Bool) (oracle : List (List String))
    (st : SessionState) (text : String),
    st.log.length < (process_message validate oracle st text).log.length

end SlideGen

namespace SlideGen

/-- Helper: a generation todo appends exactly one log message. -/
theorem runGenerate_log_length (validate : String → Bool)
    (responses : List String) (st : SessionState) :
    (runGenerate validate responses st).log.length = st.log.length + 1 := by
  unfold runGenerate
  cases h : (responses.take MAX_ATTEMPTS).find? (fun r => validate r) <;>
    simp

/-- Helper: the execution loop never shortens the log. -/
theorem runTodos_log_mono (validate : String → Bool) :
    ∀ (todos : List Todo) (oracle : List (List String)) (st : SessionState),
      st.log.length ≤ (runTodos validate todos oracle st).log.length := by
  intro todos
  induction todos with
  | nil => intro oracle st; exact Nat.le_refl _
  | cons t ts ih =>
    intro oracle st
    cases t with
    | generate topic =>
      refine Nat.le_trans ?_ (ih oracle.tail _)
      rw [runGenerate_log_length]
      exact Nat.le_succ _
    | remove i =>
      refine Nat.le_trans ?_ (ih oracle _)
      simp
    | reorder src dst =>
      refine Nat.le_trans ?_ (ih oracle _)
      simp

/-- C4 counterexample: a call whose text trims to empty leaves the log
unchanged (the spec's own §4.1 no-op rule), so "the message-log length
after every `process_message` call is strictly greater than before" is
false as stated. -/
theorem process_message_growth_refuted : ¬ processMessageAlwaysGrowsLog := by
  intro h
  have h2 := h (fun _ => true) [] ⟨⟨[], 0⟩, [], [], 0⟩ ""
  revert h2
  decide

/-- C4 (amended): for every call whose text is non-empty after trimming,
the message-log length afterwards is strictly greater than before — the
Status Reporter runs exactly once at the end of the turn, so even an
empty todo queue yields at least one new entry. -/
theorem process_message_appends (validate : String → Bool)
    (oracle : List (List String)) (st : SessionState) (text : String)
    (h : trimStr text ≠ "") :
    st.log.length < (process_message validate oracle st text).log.length := by
  unfold process_message
  rw [if_neg h]
  have hm := runTodos_log_mono validate (plan (classifyIntent text)) oracle
    { st with log := st.log ++ [⟨"user", trimStr text, none⟩] }
  simp only [List.length_append, List.length_cons, List.length_nil] at hm
  unfold reportStatus
  simp only [List.length_append, List.length_cons, List.length_nil]
  omega

/-- C4 witness: a concrete create-presentation turn grows the log (here
from 0 entries to user + two tool results + status). -/
theorem process_message_appends_witness :
    (⟨⟨[], 0⟩, [], [], 0⟩ : SessionState).log.length <
      (process_message (fun _ => true) [["<p>ok</p>"], ["<p>b</p>"]]
        ⟨⟨[], 0⟩, [], [], 0⟩ "create slides about AI").log.length :=
  process_message_appends (fun _ => true) [["<p>ok</p>"], ["<p>b</p>"]]
    ⟨⟨[], 0⟩, [], [], 0⟩ "create slides about AI" (by decide)

/-- Helper: a markup present after renumbering was present before. -/
theorem mem_renumberFrom_markup {s : Slide} {l : List Slide} {n : Nat}
    (hs : s ∈ renumberFrom n l) :
    s.markup ∈ l.map (fun t => t.markup) := by
  have : s.markup ∈ (renumberFrom n l).map (fun t => t.markup) :=
    List.mem_map_of_mem _ hs
  rwa [renumberFrom_map_markup] at this

/-- C5: A generation todo all of whose tried candidates fail validation
inserts nothing — the deck's slide list (hence its count) is unchanged
and exactly one error record is appended — and a generation todo can
never make the deck contain a slide failing validation. -/
theorem generator_never_inserts_invalid (validate : String → Bool)
    (responses : List String) (st : SessionState) :
    ((∀ r ∈ responses.take MAX_ATTEMPTS, validate r = false) →
      (runGenerate validate responses st).deck.slides = st.deck.slides ∧
        (runGenerate validate responses st).errors
          = st.errors ++ ["slide generation failed validation"]) ∧
    ((∀ s ∈ st.deck.slides, validate s.markup = true) →
      ∀ s ∈ (runGenerate validate responses st).deck.slides,
        validate s.markup = true) := by
  constructor
  · intro hall
    have hnone : (responses.take MAX_ATTEMPTS).find? (fun r => validate r)
        = none := by
      rw [List.find?_eq_none]
      intro r hr
      simp [hall r hr]
    unfold runGenerate
    rw [hnone]
    exact ⟨rfl, rfl⟩
  · intro hvalid s hs
    unfold runGenerate at hs
    cases hf : (responses.take MAX_ATTEMPTS).find? (fun r => validate r) with
    | none =>
      rw [hf] at hs
      exact hvalid s hs
    | some markup =>
      have hmk : validate markup = true := List.find?_some hf
      rw [hf] at hs
      simp only [applyOp] at hs
      have hmem := mem_renumberFrom_markup hs
      have hperm := (insertAt_perm (⟨st.deck.nextId, 0, markup⟩ : Slide)
        st.deck.slides.length st.deck.slides).map (fun t => t.markup)
      rcases List.mem_cons.mp (hperm.mem_iff.mp hmem) with heq | hmem'
      · rw [heq]; exact hmk
      · rcases List.mem_map.mp hmem' with ⟨t, ht, hts⟩
        rw [← hts]
        exact hvalid t ht

/-- C5 witness: two invalid candidates against a one-slide valid deck —
nothing inserted, one error record, the deck still all-valid. -/
theorem generator_never_inserts_invalid_witness :
    (runGenerate (fun r => r == "good") ["bad1", "bad2"]
        ⟨⟨[⟨0, 0, "good"⟩], 1⟩, [], [], 0⟩).deck.slides = [⟨0, 0, "good"⟩] ∧
      (runGenerate (fun r => r == "good") ["bad1", "bad2"]
        ⟨⟨[⟨0, 0, "good"⟩], 1⟩, [], [], 0⟩).errors
        = ["slide generation failed validation"] ∧
      ∀ s ∈ (runGenerate (fun r => r == "good") ["bad1", "bad2"]
        ⟨⟨[⟨0, 0, "good"⟩], 1⟩, [], [], 0⟩).deck.slides,
        (s.markup == "good") = true := by
  have h := generator_never_inserts_invalid (fun r => r == "good")
    ["bad1", "bad2"] ⟨⟨[⟨0, 0, "good"⟩], 1⟩, [], [], 0⟩
  have h1 := h.1 (by decide)
  have h2 := h.2 (by decide)
  exact ⟨h1.1, h1.2, h2⟩

end SlideGen

namespace SlideGen

/-- C7 witness: on a concrete two-message log, flattening the groups
restores the log, the tool-call message forms a collapsed singleton tool
group, and the plain assistant message is not a tool message. -/
theorem groupMessages_spec_witness :
    (groupMessages [⟨"assistant", "calling", some ⟨some "Tool call: x"⟩⟩,
        ⟨"assistant", "hello", none⟩]).flatMap itemMsgs
      = [⟨"assistant", "calling", some ⟨some "Tool call: x"⟩⟩,
        ⟨"assistant", "hello", none⟩] ∧
      isToolMessage (⟨"assistant", "hello", none⟩ : ChatMessage) = false ∧
      (isToolMessage (⟨"assistant", "calling",
          some ⟨some "Tool call: x"⟩⟩ : ChatMessage) = true ↔
        ∃ t, titleOpt (⟨"assistant", "calling",
            some ⟨some "Tool call: x"⟩⟩ : ChatMessage) = some t ∧
          (containsSub "Tool".data t.data || containsSub "tool".data t.data)
            = true) := by
  have h := groupMessages_spec [⟨"assistant", "calling",
    some ⟨some "Tool call: x"⟩⟩, ⟨"assistant", "hello", none⟩]
  refine ⟨h.1, ?_, ?_⟩
  · exact h.2.1 (GroupItem.single ⟨"assistant", "hello", none⟩) (by decide)
  · exact h.2.2 ⟨"assistant", "calling", some ⟨some "Tool call: x"⟩⟩

end SlideGen
